import Mathlib

/-!
Verification development for `src/sorconcsv.py` (SOR trace-file decoder).

The Python source is shallowly embedded below.  Bytes are modelled as natural
numbers (values `< 256` where the byte source is well formed), byte strings as
`List Nat`, Python `int` as `Nat`/`Int`, and Python `float` as `ℚ` (every float
operation performed by the decoder on the values the claims speak about is a
product/quotient/difference of decimal constants, so the rational model tracks
the intended real-number semantics of the formulas in the code).  Fallible code
(Python exceptions) is modelled with `Except String`.
-/

deriving instance DecidableEq for Except

namespace SorConCsv

/-! ### CRC-16/CCITT-FALSE (crcmod.predefined.Crc("crc-ccitt-false"))

Polynomial 0x1021, initial value 0xFFFF, no reflection, xor-out 0, processed
most-significant-bit first. -/

/-- One shift-and-conditionally-xor round of the CRC register. -/
def crcRound (s : Nat) : Nat :=
  if s.testBit 15 then ((s * 2) ^^^ 0x1021) % 65536 else (s * 2) % 65536

/-- Fold one byte into the 16-bit CRC register (MSB-first, unreflected). -/
def crcByte (s b : Nat) : Nat :=
  crcRound^[8] (s ^^^ ((b % 256) * 256))

/-- Fold a byte string into a CRC register state. -/
def crcFold (s : Nat) (bs : List Nat) : Nat :=
  bs.foldl crcByte s

/-- CRC-16/CCITT-FALSE of a byte string (register starts at 0xFFFF). -/
def crcCcittFalse (bs : List Nat) : Nat :=
  crcFold 0xFFFF bs

theorem crcFold_append (s : Nat) (a b : List Nat) :
    crcFold s (a ++ b) = crcFold (crcFold s a) b := by
  simp [crcFold, List.foldl_append]

/-! ### FileHandler (lines 89-124): the checksummed byte reader

`crc` is the running CRC register over the bytes already flushed out of the
buffer, `buffer` holds the not-yet-flushed bytes, `spaceleft` mirrors the
Python counter (it can go negative when a single read exceeds 2048 bytes, so
it is an `Int`).  `FileHandler.read` takes as argument the chunk of bytes that
the underlying `filehandle.read` returned. -/

def bufsize : Nat := 2048

structure FileHandler where
  crc : Nat
  buffer : List Nat
  spaceleft : Int
deriving Repr, DecidableEq

/-- State of a freshly constructed FileHandler (lines 91-96). -/
def FileHandler.init : FileHandler :=
  { crc := 0xFFFF, buffer := [], spaceleft := (bufsize : Int) }

/-- Lines 98-107: buffer the chunk, flushing the old buffer into the CRC first
whenever the chunk does not fit into the space left. -/
def FileHandler.read (fh : FileHandler) (buf : List Nat) : FileHandler :=
  let xlen := buf.length
  let fh1 := if (xlen : Int) > fh.spaceleft then
      { crc := crcFold fh.crc fh.buffer, buffer := [], spaceleft := (bufsize : Int) }
    else fh
  { fh1 with buffer := fh1.buffer ++ buf, spaceleft := fh1.spaceleft - xlen }

/-- Lines 109-111: flush the buffer into the CRC and return the register.
(The Python method mutates the CRC object; the returned value is the pure
function of the state modelled here, and the claims use it once.) -/
def FileHandler.digest (fh : FileHandler) : Nat :=
  crcFold fh.crc fh.buffer

/-! ### Reader: FileHandler fused with the underlying file

`data` is the whole byte content of the file and `pos` the cursor of the
underlying OS file handle.  `Reader.read` mirrors `FileHandler.read` applied
to the chunk that `filehandle.read(n)` returns (up to `n` bytes from `pos`),
`Reader.seek` mirrors lines 113-118 (seeking to 0 resets the CRC register and
the buffer; any other position only moves the cursor). -/

structure Reader where
  data : List Nat
  pos : Nat
  fh : FileHandler
deriving Repr, DecidableEq

def Reader.read (r : Reader) (n : Nat) : List Nat × Reader :=
  let buf := (r.data.drop r.pos).take n
  (buf, { r with pos := r.pos + buf.length, fh := r.fh.read buf })

def Reader.seek (r : Reader) (n : Nat) : Reader :=
  if n = 0 then { r with pos := 0, fh := FileHandler.init }
  else { r with pos := n }

/-- A reader freshly opened on the byte content `data` (lines 126-133). -/
def Reader.open (data : List Nat) : Reader :=
  { data := data, pos := 0, fh := FileHandler.init }

/-! ### Primitive decoders (lines 135-169) -/

/-- Strict UTF-8 validity of a byte string, as enforced by Python's
`bytes.decode("utf-8")`: continuation bytes in `0x80..0xBF`, no overlong
encodings, no surrogates, nothing above U+10FFFF. -/
def utf8Valid : List Nat → Bool
  | [] => true
  | b :: rest =>
    if b < 0x80 then utf8Valid rest
    else if b < 0xC2 then false
    else if b ≤ 0xDF then
      match rest with
      | c1 :: r2 => (decide (0x80 ≤ c1 ∧ c1 ≤ 0xBF)) && utf8Valid r2
      | [] => false
    else if b ≤ 0xEF then
      match rest with
      | c1 :: c2 :: r2 =>
        (decide ((if b = 0xE0 then 0xA0 ≤ c1 ∧ c1 ≤ 0xBF
                  else if b = 0xED then 0x80 ≤ c1 ∧ c1 ≤ 0x9F
                  else 0x80 ≤ c1 ∧ c1 ≤ 0xBF) ∧ 0x80 ≤ c2 ∧ c2 ≤ 0xBF))
          && utf8Valid r2
      | _ => false
    else if b ≤ 0xF4 then
      match rest with
      | c1 :: c2 :: c3 :: r2 =>
        (decide ((if b = 0xF0 then 0x90 ≤ c1 ∧ c1 ≤ 0xBF
                  else if b = 0xF4 then 0x80 ≤ c1 ∧ c1 ≤ 0x8F
                  else 0x80 ≤ c1 ∧ c1 ≤ 0xBF)
                 ∧ (0x80 ≤ c2 ∧ c2 ≤ 0xBF) ∧ (0x80 ≤ c3 ∧ c3 ≤ 0xBF)))
          && utf8Valid r2
      | _ => false
    else false

/-- The bytes of the leading NUL-terminated string: accumulate until a NUL
byte or the end of the stream (the NUL itself is not part of the result). -/
def takeUntilNul : List Nat → List Nat
  | [] => []
  | b :: rest => if b = 0 then [] else b :: takeUntilNul rest

/-- The loop of `_get_string` (lines 137-144) against the remaining bytes of
the file: returns the accumulated string bytes, the number of bytes consumed
and the FileHandler after the one-byte reads (at the end of the stream the
Python loop performs one more `read(1)` that returns `b""`). -/
def getStringAux (fh : FileHandler) : List Nat → List Nat × Nat × FileHandler
  | [] => ([], 0, fh.read [])
  | b :: rest =>
    let fh1 := fh.read [b]
    if b = 0 then ([], 1, fh1)
    else
      let q := getStringAux fh1 rest
      (b :: q.1, q.2.1 + 1, q.2.2)

/-- `_get_string` (lines 135-145): read a NUL-terminated string byte by byte
and decode it as UTF-8; invalid UTF-8 raises a `UnicodeDecodeError`. -/
def get_string (r : Reader) : Except String (List Nat × Reader) :=
  let q := getStringAux r.fh (r.data.drop r.pos)
  if utf8Valid q.1 then
    .ok (q.1, { r with pos := r.pos + q.2.1, fh := q.2.2 })
  else .error "utf-8 codec cannot decode"

/-- Little-endian unsigned value of a byte string. -/
def bytesToUintLE (bs : List Nat) : Nat :=
  bs.foldr (fun b acc => b % 256 + 256 * acc) 0

/-- `_get_uint` (lines 147-157): read `nbytes` bytes and unpack them as a
little-endian unsigned integer; `struct.unpack` raises when fewer bytes than
requested were available, and any width outside {2,4,8} raises `ValueError`. -/
def get_uint (r : Reader) (nbytes : Nat) : Except String (Nat × Reader) :=
  let q := r.read nbytes
  if nbytes = 2 ∨ nbytes = 4 ∨ nbytes = 8 then
    if q.1.length = nbytes then .ok (bytesToUintLE q.1, q.2)
    else .error "unpack requires a buffer"
  else .error "Invalid number of bytes"

/-! ### Map block (lines 172-209) -/

/-- The byte string "Map". -/
def mapTag : List Nat := [77, 97, 112]

/-- Lines 174-184 of `_process_mapblock`: seek to 0, read the leading string,
set format 2 when it equals "Map", otherwise set format 1 and rewind to 0.
Returns the detected format together with the reader state left behind. -/
def process_mapformat (data : List Nat) : Except String (Nat × Reader) :=
  let r0 := (Reader.open data).seek 0
  match get_string r0 with
  | .error e => .error e
  | .ok (tt, r1) =>
    if tt = mapTag then .ok (2, r1)
    else .ok (1, r1.seek 0)

/-- One entry of `results["blocks"]` (lines 200-206).  `bver` is kept as the
raw integer read at line 197 (the source only formats it as text). -/
structure BlockEntry where
  name : List Nat
  bver : Nat
  size : Nat
  pos : Nat
  order : Nat
deriving Repr, DecidableEq

/-- The loop of lines 195-207: each entry's `pos` is the running total
`startpos`, which starts at the map block's declared byte size and is
incremented by each entry's size after the assignment; `order` is the loop
index. -/
def mapBlocksAux (startpos order : Nat) : List (List Nat × Nat × Nat) → List BlockEntry
  | [] => []
  | (bname, bver, bsize) :: rest =>
    { name := bname, bver := bver, size := bsize, pos := startpos, order := order }
      :: mapBlocksAux (startpos + bsize) (order + 1) rest

/-- Lines 193-207 at the level of the already-decoded `(name, version, size)`
triples read in the loop body: `startpos` starts at `mapblock.nbytes`. -/
def process_mapblocks (nbytes : Nat) (entries : List (List Nat × Nat × Nat)) :
    List BlockEntry :=
  mapBlocksAux nbytes 0 entries

/-! ### Fixed parameters derivation (lines 381-386)

`xref["index"]` is the raw 4-byte unsigned value scaled by 1e-5 and formatted
to 6 decimals (exact, since the scaled value has at most 5 decimals), and the
first word of `xref["sample spacing"]` is the raw 4-byte unsigned value scaled
by 1e-8 (printed by `str` and parsed back by `float`, an identity), so the
derivation below takes the raw field values. -/

/-- Line 14: speed of light in km/usec (`299792.458 / 1e6`). -/
def SOL : ℚ := 299792458 / 1000000000

/-- Lines 382-385: `dx = ss * SOL / ior`; `resolution` is stored in meters
(`dx * 1000.0`). -/
def fxd_resolution (ssRaw iorRaw : Nat) : ℚ :=
  let ss : ℚ := (ssRaw : ℚ) * (1 / 100000000)
  let ior : ℚ := (iorRaw : ℚ) * (1 / 100000)
  let dx : ℚ := ss * SOL / ior
  dx * 1000

/-! ### Data points block (lines 390-443)

The block is modelled at the level of the values its stream reads return:
`N` is the 4-byte sample count (line 408), `numTraces` the signed 2-byte trace
count (line 411; the duplicate 4-byte sample count of line 416 is read and
discarded by the source), `scalingCode` the 2-byte scaling code (line 417) and
`sample i` the `i`-th unsigned 2-byte raw sample of line 422.  `resolution` is
`results["FxdParams"]["resolution"]` in meters.  The trace points are kept as
(distance, loss) pairs of rationals; the source formats each pair to 6
decimals into a tab-separated line (line 441), which is presentation only. -/

structure DataptsResult where
  numDataPoints : Nat
  numTraces : Int
  scalingFactor : ℚ
  tracedata : List (ℚ × ℚ)
deriving Repr, DecidableEq

/-- Lines 403-443 of `_process_datapts` after the header check.  The offset
mode and x-scaling are the constants of line 405 (`{"xscaling": 1, "offset":
"STV"}`).  `max(dlist)` on an empty sample list raises a `ValueError`; on a
nonempty list of naturals it equals `List.foldl max 0`. -/
def process_datapts (resolution : ℚ) (N : Nat) (numTraces : Int)
    (scalingCode : Nat) (sample : Nat → Nat) : Except String DataptsResult :=
  let offset : String := "STV"
  let xscaling : ℚ := 1
  let dlist : List Nat := (List.range N).map sample
  if dlist = [] then .error "max() arg is an empty sequence"
  else
    let ymax : Nat := dlist.foldl max 0
    let ymin : Nat := dlist.foldl min (dlist.headD 0)
    let scalingFactor : ℚ := (scalingCode : ℚ) / 1000
    let fs : ℚ := (1 / 1000) * scalingFactor
    let dx : ℚ := resolution / 1000
    let nlist : List ℚ :=
      if offset = "STV" then
        dlist.map (fun (x : Nat) => ((ymax : ℚ) - (x : ℚ)) * fs)
      else if offset = "AFL" then
        dlist.map (fun (x : Nat) => ((ymin : ℚ) - (x : ℚ)) * fs)
      else dlist.map (fun (x : Nat) => -(x : ℚ) * fs)
    let trace : List (ℚ × ℚ) :=
      (List.range N).map (fun (i : Nat) => (dx * (i : ℚ) * xscaling / 1000, nlist.getD i 0))
    .ok { numDataPoints := N, numTraces := numTraces,
          scalingFactor := scalingFactor, tracedata := trace }

/-! ### Block header validation and the checksum block -/

/-- The common prologue of every non-map block decoder (for `Cksum` lines
514-522): seek to the block's declared position, and on format 2 read
`len(bname) + 1` bytes, decode them as ASCII (bytes ≥ 128 raise a
`UnicodeDecodeError`) and compare with `bname + "\0"`, answering "nok" on a
mismatch. -/
def processBlockHeader (format : Nat) (bname : List Nat) (pos : Nat)
    (r : Reader) : Except String (String × Reader) :=
  let r0 := r.seek pos
  if format = 2 then
    let q := r0.read (bname.length + 1)
    if q.1.all (fun b => b < 128) then
      if q.1 = bname ++ [0] then .ok ("ok", q.2) else .ok ("nok", q.2)
    else .error "ascii codec cannot decode"
  else .ok ("ok", r0)

/-- The byte string "Cksum". -/
def cksumTag : List Nat := [67, 107, 115, 117, 109]

/-- The record stored into `results["Cksum"]` (lines 530-532); the source key
"match" is called `chkMatch` here (`match` is reserved in Lean). -/
structure CksumRecord where
  checksumOurs : Nat
  checksum : Nat
  chkMatch : Bool
deriving Repr, DecidableEq

/-- `_process_cksum` (lines 511-534): header check, then the running digest is
finalized BEFORE the stored 2-byte checksum is read, and the comparison is
recorded as data while the returned status is "ok". -/
def process_cksum (format : Nat) (pos : Nat) (r : Reader) :
    Except String (String × Option CksumRecord × Reader) :=
  match processBlockHeader format cksumTag pos r with
  | .error e => .error e
  | .ok (hst, r2) =>
    if hst ≠ "ok" then .ok (hst, none, r2)
    else
      let digest := r2.fh.digest
      match get_uint r2 2 with
      | .error e => .error e
      | .ok (csum, r3) =>
        .ok ("ok", some { checksumOurs := digest, checksum := csum,
                          chkMatch := digest == csum }, r3)

/-! ### Orchestrator (lines 23-86)

The block loop of `sorparse` dispatches on the block name and only ever
inspects the status string a decoder returns, so it is embedded with the
parse state abstracted to a type `σ`: `dispatch` maps a block name to its
decoder (`none` for the unrecognized names that lines 66-77 silently skip),
and a decoder either raises (`Except.error`) or returns a status and the
mutated state.  `results` and `tracedata` project the two components the
Python method returns out of the state. -/

/-- Lines 62-80: visit the blocks in order; an unknown name leaves `status`
untouched, a known decoder runs and its status replaces `status`; the loop
breaks as soon as `status` is not "ok". -/
def blockLoop {σ : Type} (dispatch : String → Option (σ → Except String (String × σ))) :
    List String → String → σ → Except String (String × σ)
  | [], status, st => .ok (status, st)
  | bname :: rest, status, st =>
    match dispatch bname with
    | none => if status = "ok" then blockLoop dispatch rest status st else .ok (status, st)
    | some dec =>
      match dec st with
      | .error e => .error e
      | .ok (status2, st2) =>
        if status2 = "ok" then blockLoop dispatch rest status2 st2
        else .ok (status2, st2)

/-- The body of the `try` of `sorparse` (lines 49-83): process the map block
first, return `(status, None, None)` if it is not "ok", otherwise run the
block loop (started with the map's "ok" status) and return its status with
the mutated state. -/
def sorparseCore {σ : Type} (processMap : σ → Except String (String × σ))
    (blockNames : σ → List String)
    (dispatch : String → Option (σ → Except String (String × σ)))
    (st0 : σ) : Except String (String × Option σ) :=
  match processMap st0 with
  | .error e => .error e
  | .ok (mst, st1) =>
    if mst = "ok" then
      match blockLoop dispatch (blockNames st1) mst st1 with
      | .error e => .error e
      | .ok (status, st2) => .ok (status, some st2)
    else .ok (mst, none)

/-- `sorparse` (lines 47-86): any exception is caught and turned into the
triple `("Error: " + str(e), None, None)`; otherwise the status is returned
with `self.results` and `self.tracedata` (both projected from the state). -/
def sorparse {σ ρ τ : Type} (processMap : σ → Except String (String × σ))
    (blockNames : σ → List String)
    (dispatch : String → Option (σ → Except String (String × σ)))
    (results : σ → ρ) (tracedata : σ → τ)
    (st0 : σ) : String × Option ρ × Option τ :=
  match sorparseCore processMap blockNames dispatch st0 with
  | .error e => ("Error: " ++ e, none, none)
  | .ok (status, none) => (status, none, none)
  | .ok (status, some st) => (status, some (results st), some (tracedata st))

/-- `convert_to_csv` (lines 23-36): when the parse status is not "ok" no
output file is written (`return False`); otherwise the trace data is written
out.  The produced file is modelled as the trace payload. -/
def convert_to_csv {σ ρ τ : Type} (processMap : σ → Except String (String × σ))
    (blockNames : σ → List String)
    (dispatch : String → Option (σ → Except String (String × σ)))
    (results : σ → ρ) (tracedata : σ → τ)
    (st0 : σ) : Option τ :=
  match sorparse processMap blockNames dispatch results tracedata st0 with
  | (status, _, otrace) => if status = "ok" then otrace else none

/-- Every non-map block decoder of the source opens with the seek-and-check
prologue of `processBlockHeader` and runs its block-specific body only when
the header status is "ok" (compare lines 213-222, 261-270, 287-296, 392-401,
447-456, 513-522); a non-"ok" header status is returned as the block's
status. -/
def block_with_header {σ : Type} (format : Nat) (bname : List Nat) (pos : Nat)
    (getReader : σ → Reader) (setReader : σ → Reader → σ)
    (body : σ → Except String (String × σ)) (st : σ) :
    Except String (String × σ) :=
  match processBlockHeader format bname pos (getReader st) with
  | .error e => .error e
  | .ok (hst, r2) =>
    if hst ≠ "ok" then .ok (hst, setReader st r2)
    else body (setReader st r2)

/-! ### Helper lemmas -/

theorem read_crcFold_ext (fh : FileHandler) (buf rest : List Nat) :
    crcFold (fh.read buf).crc ((fh.read buf).buffer ++ rest)
      = crcFold fh.crc (fh.buffer ++ (buf ++ rest)) := by
  unfold FileHandler.read
  by_cases h : ((buf.length : Int) > fh.spaceleft) <;>
    simp [h, crcFold_append, List.append_assoc]

theorem digest_foldl (chunks : List (List Nat)) (fh : FileHandler) :
    (chunks.foldl FileHandler.read fh).digest
      = crcFold fh.crc (fh.buffer ++ chunks.flatten) := by
  induction chunks generalizing fh with
  | nil => simp [FileHandler.digest]
  | cons c cs ih =>
    simp only [List.foldl_cons, List.flatten_cons]
    rw [ih, read_crcFold_ext]

theorem blockLoop_append {σ : Type}
    (dispatch : String → Option (σ → Except String (String × σ)))
    (pre post : List String) (st : σ) :
    blockLoop dispatch (pre ++ post) "ok" st
      = match blockLoop dispatch pre "ok" st with
        | .error e => .error e
        | .ok (s, st2) =>
          if s = "ok" then blockLoop dispatch post "ok" st2 else .ok (s, st2) := by
  induction pre generalizing st with
  | nil => simp [blockLoop]
  | cons b t ih =>
    simp only [List.cons_append, blockLoop]
    cases hdisp : dispatch b with
    | none => simp [ih]
    | some dec =>
      cases hdec : dec st with
      | error e => simp [hdec]
      | ok p =>
        obtain ⟨s2, st2⟩ := p
        by_cases hs : s2 = "ok"
        · subst hs; simp [hdec, ih]
        · simp [hdec, hs]

theorem sum_take_mono (l : List Nat) :
    ∀ i j, i ≤ j → (l.take i).sum ≤ (l.take j).sum := by
  induction l with
  | nil => intro i j _; simp
  | cons a t ih =>
    intro i j hij
    cases i with
    | zero => simp
    | succ i' =>
      cases j with
      | zero => omega
      | succ j' =>
        simp only [List.take_succ_cons, List.sum_cons]
        exact Nat.add_le_add_left (ih i' j' (by omega)) a

theorem mapBlocksAux_pos (entries : List (List Nat × Nat × Nat)) :
    ∀ (startpos order i : Nat) (h : i < (mapBlocksAux startpos order entries).length),
      ((mapBlocksAux startpos order entries).get ⟨i, h⟩).pos
        = startpos + ((entries.map (fun e => e.2.2)).take i).sum := by
  induction entries with
  | nil => intro _ _ i h; simp [mapBlocksAux] at h
  | cons e t ih =>
    intro startpos order i h
    obtain ⟨bname, bver, bsize⟩ := e
    cases i with
    | zero => simp [mapBlocksAux]
    | succ i' =>
      simp only [mapBlocksAux, List.length_cons] at h
      have h' : i' < (mapBlocksAux (startpos + bsize) (order + 1) t).length := by
        simpa using Nat.lt_of_succ_lt_succ h
      simp only [mapBlocksAux, List.get_cons_succ, List.map_cons, List.take_succ_cons,
        List.sum_cons]
      rw [ih (startpos + bsize) (order + 1) i' h']
      omega

theorem le_foldl_max (l : List Nat) :
    ∀ a, a ≤ l.foldl max a ∧ ∀ x ∈ l, x ≤ l.foldl max a := by
  induction l with
  | nil =>
    intro a
    exact ⟨le_refl a, by intro x hx; simp at hx⟩
  | cons b t ih =>
    intro a
    simp only [List.foldl_cons]
    refine ⟨le_trans (le_max_left a b) (ih (max a b)).1, ?_⟩
    intro x hx
    rcases List.mem_cons.mp hx with rfl | hx
    · exact le_trans (le_max_right a x) (ih (max a x)).1
    · exact (ih (max a b)).2 x hx

theorem foldl_max_mem (l : List Nat) :
    ∀ a, l.foldl max a = a ∨ l.foldl max a ∈ l := by
  induction l with
  | nil => intro a; left; rfl
  | cons b t ih =>
    intro a
    simp only [List.foldl_cons]
    rcases ih (max a b) with h | h
    · rw [h]
      rcases Nat.le_total a b with hab | hab
      · right; rw [max_eq_right hab]; exact List.mem_cons_self b t
      · left; exact max_eq_left hab
    · right; exact List.mem_cons_of_mem b h

/-- On a nonempty list of naturals, `List.foldl max 0` is the unique value
that bounds every element and is attained, i.e. Python's `max(dlist)`. -/
theorem foldl_max_eq_of_bounds (l : List Nat) (M : Nat)
    (hub : ∀ x ∈ l, x ≤ M) (hmem : M ∈ l) : l.foldl max 0 = M := by
  have h1 : M ≤ l.foldl max 0 := (le_foldl_max l 0).2 M hmem
  have h2 : l.foldl max 0 ≤ M := by
    rcases foldl_max_mem l 0 with h | h
    · omega
    · exact hub _ h
  omega

theorem getStringAux_fst (fh : FileHandler) (l : List Nat) :
    (getStringAux fh l).1 = takeUntilNul l := by
  induction l generalizing fh with
  | nil => rfl
  | cons b t ih =>
    by_cases hb : b = 0 <;> simp [getStringAux, takeUntilNul, hb, ih]

/-! ### Claim C4 -/

/-- C4: the FileHandler digest equals the CRC-16/CCITT-FALSE of the
concatenation of all bytes returned by `read` since construction, or since
the last `seek(0)`, for every split of those bytes into read chunks
(independence of the 2048-byte buffer-flush boundaries); and in the Cksum
block the recorded digest covers exactly the bytes read before the stored
16-bit checksum field — for format 1 precisely the bytes read so far, for
format 2 those bytes plus the just-read header tag — never the two bytes of
the checksum field itself, which are read only afterwards and end up in
`checksum`. -/
theorem c4_digest_is_crc_of_reads :
    (∀ chunks : List (List Nat),
        (chunks.foldl FileHandler.read FileHandler.init).digest
          = crcCcittFalse chunks.flatten)
    ∧ (∀ (r : Reader) (chunks : List (List Nat)),
        (chunks.foldl FileHandler.read (r.seek 0).fh).digest
          = crcCcittFalse chunks.flatten)
    ∧ (∀ (data : List Nat) (p0 pos : Nat) (chunks : List (List Nat)),
        pos ≠ 0 → pos + 2 ≤ data.length →
        ∃ rec r3,
          process_cksum 1 pos
              { data := data, pos := p0,
                fh := chunks.foldl FileHandler.read FileHandler.init }
            = .ok ("ok", some rec, r3)
          ∧ rec.checksumOurs = crcCcittFalse chunks.flatten
          ∧ rec.checksum = bytesToUintLE ((data.drop pos).take 2))
    ∧ (∀ (data : List Nat) (p0 pos : Nat) (chunks : List (List Nat)),
        pos ≠ 0 → (data.drop pos).take 6 = cksumTag ++ [0] →
        pos + 8 ≤ data.length →
        ∃ rec r3,
          process_cksum 2 pos
              { data := data, pos := p0,
                fh := chunks.foldl FileHandler.read FileHandler.init }
            = .ok ("ok", some rec, r3)
          ∧ rec.checksumOurs = crcCcittFalse (chunks.flatten ++ (cksumTag ++ [0]))
          ∧ rec.checksum = bytesToUintLE (((data.drop pos).drop 6).take 2)) := by
  have hinit : ∀ chunks : List (List Nat),
      (chunks.foldl FileHandler.read FileHandler.init).digest
        = crcCcittFalse chunks.flatten := by
    intro chunks
    rw [digest_foldl]
    simp [FileHandler.init, crcCcittFalse]
  refine ⟨hinit, ?_, ?_, ?_⟩
  · intro r chunks
    have h0 : (r.seek 0).fh = FileHandler.init := by simp [Reader.seek]
    rw [h0, hinit]
  · intro data p0 pos chunks hpos hlen
    have hc : 2 ≤ data.length - pos := by omega
    have hmin : min 2 (data.length - pos) = 2 := Nat.min_eq_left hc
    have heval : process_cksum 1 pos
        { data := data, pos := p0,
          fh := chunks.foldl FileHandler.read FileHandler.init }
        = .ok ("ok",
            some { checksumOurs := (chunks.foldl FileHandler.read
                       FileHandler.init).digest,
                   checksum := bytesToUintLE ((data.drop pos).take 2),
                   chkMatch := (chunks.foldl FileHandler.read
                       FileHandler.init).digest
                     == bytesToUintLE ((data.drop pos).take 2) },
            { data := data, pos := pos + 2,
              fh := (chunks.foldl FileHandler.read
                  FileHandler.init).read ((data.drop pos).take 2) }) := by
      simp [process_cksum, processBlockHeader, Reader.seek, get_uint,
        Reader.read, hpos, hc, hmin]
    exact ⟨_, _, heval, hinit chunks, rfl⟩
  · intro data p0 pos chunks hpos hhdr hlen
    have hdrop : (data.drop pos).drop 6 = data.drop (pos + 6) := by
      rw [List.drop_drop]
    have hc : 2 ≤ data.length - (pos + 6) := by omega
    have hmin : min 2 (data.length - (pos + 6)) = 2 := Nat.min_eq_left hc
    have heval : process_cksum 2 pos
        { data := data, pos := p0,
          fh := chunks.foldl FileHandler.read FileHandler.init }
        = .ok ("ok",
            some { checksumOurs := ((chunks.foldl FileHandler.read
                       FileHandler.init).read (cksumTag ++ [0])).digest,
                   checksum := bytesToUintLE ((data.drop (pos + 6)).take 2),
                   chkMatch := ((chunks.foldl FileHandler.read
                       FileHandler.init).read (cksumTag ++ [0])).digest
                     == bytesToUintLE ((data.drop (pos + 6)).take 2) },
            { data := data, pos := pos + 6 + 2,
              fh := ((chunks.foldl FileHandler.read
                  FileHandler.init).read (cksumTag ++ [0])).read
                    ((data.drop (pos + 6)).take 2) }) := by
      simp [process_cksum, processBlockHeader, Reader.seek, get_uint,
        Reader.read, hpos, hc, hmin, cksumTag, hdrop,
        show (data.drop pos).take 6 = cksumTag ++ [0] from hhdr]
    refine ⟨_, _, heval, ?_, by rw [hdrop]⟩
    show ((chunks.foldl FileHandler.read FileHandler.init).read
        (cksumTag ++ [0])).digest = _
    have hread : ∀ fh : FileHandler,
        (fh.read (cksumTag ++ [0])).digest
          = crcFold fh.crc (fh.buffer ++ (cksumTag ++ [0])) := by
      intro fh
      have h := read_crcFold_ext fh (cksumTag ++ [0]) []
      simpa [FileHandler.digest] using h
    rw [hread, crcFold_append,
      show crcFold (chunks.foldl FileHandler.read FileHandler.init).crc
            (chunks.foldl FileHandler.read FileHandler.init).buffer
          = (chunks.foldl FileHandler.read FileHandler.init).digest from rfl,
      hinit chunks, crcCcittFalse, crcCcittFalse, ← crcFold_append]

/-- C4 witness: a concrete run (format 1, stored checksum bytes `[2, 3]` at
position 1, one prior read chunk `[9]`). -/
theorem c4_digest_witness :
    ∃ rec r3,
      process_cksum 1 1
          { data := [1, 2, 3], pos := 0,
            fh := [[9]].foldl FileHandler.read FileHandler.init }
        = .ok ("ok", some rec, r3)
      ∧ rec.checksumOurs = crcCcittFalse [9]
      ∧ rec.checksum = bytesToUintLE [2, 3] := by
  have h := c4_digest_is_crc_of_reads.2.2.1 [1, 2, 3] 0 1 [[9]]
    (by decide) (by decide)
  simpa using h

/-! ### Claims C7 and C8 -/

/-- C7: every map-table entry's absolute offset is the map block's declared
byte size plus the sum of the declared sizes of the entries listed before it,
and consequently the offsets are non-decreasing in declaration order. -/
theorem c7_map_offsets_cumulative (nbytes : Nat)
    (entries : List (List Nat × Nat × Nat)) (i j : Nat)
    (hi : i < (process_mapblocks nbytes entries).length)
    (hj : j < (process_mapblocks nbytes entries).length) :
    ((process_mapblocks nbytes entries).get ⟨i, hi⟩).pos
        = nbytes + ((entries.map (fun e => e.2.2)).take i).sum
    ∧ (i ≤ j →
        ((process_mapblocks nbytes entries).get ⟨i, hi⟩).pos
          ≤ ((process_mapblocks nbytes entries).get ⟨j, hj⟩).pos) := by
  simp only [process_mapblocks] at hi hj ⊢
  constructor
  · exact mapBlocksAux_pos entries nbytes 0 i hi
  · intro hij
    rw [mapBlocksAux_pos entries nbytes 0 i hi,
      mapBlocksAux_pos entries nbytes 0 j hj]
    exact Nat.add_le_add_left (sum_take_mono _ i j hij) nbytes

/-- C7 witness: a concrete two-entry map table (map block of 64 bytes, block
sizes 10 and 20): the second entry sits at 64 + 10 = 74 and the offsets do
not decrease. -/
theorem c7_map_offsets_witness :
    ((process_mapblocks 64 [([65], 100, 10), ([66], 100, 20)]).get
        ⟨1, by decide⟩).pos = 74
    ∧ ((process_mapblocks 64 [([65], 100, 10), ([66], 100, 20)]).get
        ⟨0, by decide⟩).pos
      ≤ ((process_mapblocks 64 [([65], 100, 10), ([66], 100, 20)]).get
        ⟨1, by decide⟩).pos := by
  constructor
  · rw [(c7_map_offsets_cumulative 64 [([65], 100, 10), ([66], 100, 20)] 1 1
      (by decide) (by decide)).1]
    decide
  · exact (c7_map_offsets_cumulative 64 [([65], 100, 10), ([66], 100, 20)] 0 1
      (by decide) (by decide)).2 (by decide)

/-- C8: a successfully decoded DataPts block that declares `N` samples
appends exactly `N` trace points. -/
theorem c8_tracepoint_count (resolution : ℚ) (N : Nat) (nt : Int) (c : Nat)
    (sample : Nat → Nat) (res : DataptsResult)
    (h : process_datapts resolution N nt c sample = .ok res) :
    res.tracedata.length = N := by
  simp only [process_datapts] at h
  split at h
  · exact absurd h (by simp)
  · cases h
    simp

/-- C8 witness: a one-sample block produces exactly one trace point. -/
theorem c8_tracepoint_witness :
    ∃ res, process_datapts 0 1 1 0 (fun _ => 7) = .ok res
      ∧ res.tracedata.length = 1 := by
  have h : process_datapts 0 1 1 0 (fun _ => 7)
      = .ok { numDataPoints := 1, numTraces := 1, scalingFactor := 0,
              tracedata := [(0, 0)] } := by
    simp only [process_datapts]
    norm_num [List.range_succ]
  exact ⟨_, h, c8_tracepoint_count 0 1 1 0 (fun _ => 7) _ h⟩

/-! ### Claims C3 and C1 -/

theorem getD_map_range (N i : Nat) (hi : i < N) (g : Nat → ℚ) :
    ((List.range N).map g).getD i 0 = g i := by
  rw [List.getD_eq_getElem?_getD, List.getElem?_map]
  simp [List.getElem?_range, hi]

/-- C3: under the hard-coded offset mode "STV", the loss emitted for sample
`i` is `(max_j d_j − d_i) × 0.001 × (c / 1000)` where `c` is the 16-bit
scaling code (`M` below is characterized as the maximum of the samples: an
attained upper bound); and on the concrete block with raw samples
`[100, 150, 50]` and scaling code 1000 the losses are
`[0.050, 0.000, 0.100]`. -/
theorem c3_stv_losses :
    (∀ (resolution : ℚ) (N : Nat) (nt : Int) (c : Nat) (sample : Nat → Nat)
        (M : Nat),
        N ≠ 0 →
        (∀ j, j < N → sample j ≤ M) →
        (∃ j, j < N ∧ sample j = M) →
        ∃ res, process_datapts resolution N nt c sample = .ok res
          ∧ res.tracedata.map Prod.snd
            = (List.range N).map
                (fun k => ((M : ℚ) - (sample k : ℚ)) * (1 / 1000) * ((c : ℚ) / 1000)))
    ∧ (∃ res3,
        process_datapts 1000 3 1 1000 (fun k => [100, 150, 50].getD k 0) = .ok res3
        ∧ res3.tracedata.map Prod.snd = [5/100, 0, 1/10]) := by
  constructor
  · intro resolution N nt c sample M hN hub hmem
    have hne : (List.range N).map sample ≠ [] := by
      simp only [ne_eq, List.map_eq_nil_iff, List.range_eq_nil]
      exact hN
    have hmax : ((List.range N).map sample).foldl max 0 = M := by
      apply foldl_max_eq_of_bounds
      · intro x hx
        rcases List.mem_map.mp hx with ⟨j, hj, rfl⟩
        exact hub j (List.mem_range.mp hj)
      · rcases hmem with ⟨j, hj, hsj⟩
        exact hsj ▸ List.mem_map_of_mem sample (List.mem_range.mpr hj)
    simp only [process_datapts]
    rw [if_neg hne]
    refine ⟨_, rfl, ?_⟩
    simp only [List.map_map]
    apply List.map_congr_left
    intro i hi
    have hi' : i < N := List.mem_range.mp hi
    simp only [Function.comp_apply, if_true]
    rw [getD_map_range N i hi', Function.comp_apply, hmax, ← mul_assoc]
  · have h : process_datapts 1000 3 1 1000 (fun k => [100, 150, 50].getD k 0)
        = .ok { numDataPoints := 3, numTraces := 1, scalingFactor := 1,
                tracedata := [(0, 5/100), (1/1000, 0), (2/1000, 1/10)] } := by
      simp only [process_datapts]
      norm_num [List.range_succ]
      intro hcon
      simp at hcon
    exact ⟨_, h, by norm_num⟩

/-- C3 witness: the STV formula applied at a concrete block (two samples
`[10, 11]`, scaling code 2000, maximum 11). -/
theorem c3_stv_witness :
    ∃ res, process_datapts 1 2 1 2000 (fun k => k + 10) = .ok res
      ∧ res.tracedata.map Prod.snd
        = (List.range 2).map
            (fun k => ((11 : ℚ) - ((k + 10 : Nat) : ℚ)) * (1 / 1000) * ((2000 : ℚ) / 1000)) :=
  c3_stv_losses.1 1 2 1 2000 (fun k => k + 10) 11 (by decide)
    (by intro j hj; show j + 10 ≤ 11; omega) ⟨1, by omega, rfl⟩

/-- C1 (the code contradicts the claim): with a per-sample resolution of 1000
meters — so resolution(km) = 1000/1000 = 1 — the distance the code emits for
sample 1 is 1/1000 km, not resolution(km) × 1 = 1 km.  Line 430 already
converts the stored resolution to kilometers (`dx = resolution / 1000.0`, "in
km") and line 440 divides by 1000 a second time (`x = dx * i * xscaling /
1000.0`, "distance in km"), so the emitted value is a thousandth of the
distance both comments, the CSV header "Distance (km)" and the spec describe. -/
theorem c1_distance_double_division :
    process_datapts 1000 2 1 1000 (fun _ => 0)
      = .ok { numDataPoints := 2, numTraces := 1, scalingFactor := 1,
              tracedata := [(0, 0), (1/1000, 0)] }
    ∧ ((1000 : ℚ) / 1000) * 1 = 1
    ∧ ((1 : ℚ) / 1000) ≠ 1 := by
  refine ⟨?_, by norm_num, by norm_num⟩
  simp only [process_datapts]
  norm_num [List.range_succ]
  intro hcon
  simp at hcon

/-! ### Orchestrator evaluation lemmas -/

theorem blockLoop_reach {σ : Type}
    (dispatch : String → Option (σ → Except String (String × σ)))
    (pre post : List String) (st st1 : σ)
    (hpre : blockLoop dispatch pre "ok" st = .ok ("ok", st1)) :
    blockLoop dispatch (pre ++ post) "ok" st
      = blockLoop dispatch post "ok" st1 := by
  rw [blockLoop_append, hpre]
  simp

theorem blockLoop_break {σ : Type}
    (dispatch : String → Option (σ → Except String (String × σ)))
    (bname : String) (post : List String)
    (dec : σ → Except String (String × σ)) (st st2 : σ) (s : String)
    (hdisp : dispatch bname = some dec) (hdec : dec st = .ok (s, st2))
    (hs : s ≠ "ok") :
    blockLoop dispatch (bname :: post) "ok" st = .ok (s, st2) := by
  simp [blockLoop, hdisp, hdec, hs]

theorem blockLoop_raise {σ : Type}
    (dispatch : String → Option (σ → Except String (String × σ)))
    (bname : String) (post : List String)
    (dec : σ → Except String (String × σ)) (st : σ) (e : String)
    (hdisp : dispatch bname = some dec) (hdec : dec st = .error e) :
    blockLoop dispatch (bname :: post) "ok" st = .error e := by
  simp [blockLoop, hdisp, hdec]

theorem sorparse_eval {σ ρ τ : Type} (processMap : σ → Except String (String × σ))
    (blockNames : σ → List String)
    (dispatch : String → Option (σ → Except String (String × σ)))
    (results : σ → ρ) (tracedata : σ → τ) (st0 st1 : σ)
    (hmap : processMap st0 = .ok ("ok", st1)) :
    sorparse processMap blockNames dispatch results tracedata st0
      = match blockLoop dispatch (blockNames st1) "ok" st1 with
        | .error e => ("Error: " ++ e, none, none)
        | .ok (status, st2) => (status, some (results st2), some (tracedata st2)) := by
  unfold sorparse sorparseCore
  rw [hmap]
  cases h : blockLoop dispatch (blockNames st1) "ok" st1 with
  | error e => simp [h]
  | ok p =>
    obtain ⟨status, st2⟩ := p
    simp [h]

/-! ### Claim C2 -/

/-- C2 counterexample: a parse in which the map block and a first block
decode successfully and the second block's decoder answers "nok" after
mutating the state.  `sorparse` does return the failure status "nok", but the
caller receives the already-decoded block records (`results`) and the trace
points appended so far — not `None`, `None` — refuting the claim that no
partial data reaches the caller on the non-"ok" path. -/
theorem c2_nok_partial_counterexample :
    sorparse
      (fun (st : List String × List (ℚ × ℚ)) => .ok ("ok", ("mapblock" :: st.1, st.2)))
      (fun _ => ["GenParams", "DataPts", "Cksum"])
      (fun bname =>
        if bname = "GenParams" then
          some (fun st => .ok ("ok", ("GenParams" :: st.1, st.2)))
        else if bname = "DataPts" then
          some (fun st => .ok ("nok", (st.1, (0, 0) :: st.2)))
        else some (fun st => .ok ("ok", ("Cksum" :: st.1, st.2))))
      Prod.fst Prod.snd ([], [])
      = ("nok", some ["GenParams", "mapblock"], some [(0, 0)]) := by
  rfl

/-- C2 amended: on the first non-"ok" decoder status, `sorparse` stops
visiting the remaining blocks (the result does not depend on `post`) and its
overall result carries the failure status — but together with the partially
populated `results` and `tracedata` (the state as mutated so far), not with
`None`; `None, None` is returned only when the map block itself fails or an
exception is raised. -/
theorem c2_nok_stops_but_returns_partial {σ ρ τ : Type}
    (processMap : σ → Except String (String × σ))
    (blockNames : σ → List String)
    (dispatch : String → Option (σ → Except String (String × σ)))
    (results : σ → ρ) (tracedata : σ → τ) (st0 st1 stPre st2 : σ)
    (pre post : List String) (bname : String)
    (dec : σ → Except String (String × σ)) (s : String)
    (hmap : processMap st0 = .ok ("ok", st1))
    (hnames : blockNames st1 = pre ++ bname :: post)
    (hpre : blockLoop dispatch pre "ok" st1 = .ok ("ok", stPre))
    (hdisp : dispatch bname = some dec)
    (hdec : dec stPre = .ok (s, st2))
    (hs : s ≠ "ok") :
    sorparse processMap blockNames dispatch results tracedata st0
      = (s, some (results st2), some (tracedata st2)) := by
  rw [sorparse_eval processMap blockNames dispatch results tracedata st0 st1 hmap,
    hnames, blockLoop_reach dispatch pre (bname :: post) st1 stPre hpre,
    blockLoop_break dispatch bname post dec stPre st2 s hdisp hdec hs]

/-- C2 witness: the amended statement applied to the concrete parse of the
counterexample (failure in the second of three declared blocks). -/
theorem c2_nok_stops_witness :
    sorparse
      (fun (st : List String × List (ℚ × ℚ)) => .ok ("ok", ("mapblock" :: st.1, st.2)))
      (fun _ => ["GenParams", "DataPts", "Cksum"])
      (fun bname =>
        if bname = "GenParams" then
          some (fun st => .ok ("ok", ("GenParams" :: st.1, st.2)))
        else if bname = "DataPts" then
          some (fun st => .ok ("nok", (st.1, (1, 2) :: st.2)))
        else some (fun st => .ok ("ok", ("Cksum" :: st.1, st.2))))
      Prod.fst Prod.snd ([], [])
      = ("nok", some ["GenParams", "mapblock"], some [(1, 2)]) := by
  exact c2_nok_stops_but_returns_partial _ _ _ Prod.fst Prod.snd ([], [])
    (["mapblock"], []) (["GenParams", "mapblock"], [])
    (["GenParams", "mapblock"], [(1, 2)])
    ["GenParams"] ["Cksum"] "DataPts" _ "nok" rfl rfl rfl rfl rfl
    (by decide)

/-! ### Claim C10 -/

theorem error_ne_ok (e : String) : "Error: " ++ e ≠ "ok" := by
  intro h
  have hlen := congrArg String.length h
  rw [String.length_append] at hlen
  have h7 : "Error: ".length = 7 := rfl
  have h2 : "ok".length = 2 := rfl
  omega

/-- C10: any exception raised inside `sorparse` — while processing the map
block or inside any reached block decoder (for example the struct unpack of a
truncated read, or a missing FxdParams record) — is caught by the enclosing
handler, which returns the status `"Error: " + str(e)` together with
`results = None` and `tracedata = None`, so no partial data reaches the
caller on the exceptional path. -/
theorem c10_exception_caught_none {σ ρ τ : Type}
    (processMap : σ → Except String (String × σ))
    (blockNames : σ → List String)
    (dispatch : String → Option (σ → Except String (String × σ)))
    (results : σ → ρ) (tracedata : σ → τ) (st0 : σ) :
    (∀ e, processMap st0 = .error e →
        sorparse processMap blockNames dispatch results tracedata st0
          = ("Error: " ++ e, none, none))
    ∧ (∀ (e : String) (st1 stPre : σ) (pre post : List String) (bname : String)
        (dec : σ → Except String (String × σ)),
        processMap st0 = .ok ("ok", st1) →
        blockNames st1 = pre ++ bname :: post →
        blockLoop dispatch pre "ok" st1 = .ok ("ok", stPre) →
        dispatch bname = some dec →
        dec stPre = .error e →
        sorparse processMap blockNames dispatch results tracedata st0
          = ("Error: " ++ e, none, none)) := by
  constructor
  · intro e he
    unfold sorparse sorparseCore
    rw [he]
  · intro e st1 stPre pre post bname dec hmap hnames hpre hdisp hdec
    rw [sorparse_eval processMap blockNames dispatch results tracedata st0 st1 hmap,
      hnames, blockLoop_reach dispatch pre (bname :: post) st1 stPre hpre,
      blockLoop_raise dispatch bname post dec stPre e hdisp hdec]

/-- C10 witness: a decoder performing a 4-byte unsigned read on a 2-byte file
raises the unpack error, and sorparse returns the "Error: " status with
`None, None`. -/
theorem c10_exception_witness :
    sorparse (fun (st : Reader) => .ok ("ok", st)) (fun _ => ["DataPts"])
      (fun bname =>
        if bname = "DataPts" then
          some (fun r =>
            match get_uint r 4 with
            | .error e => .error e
            | .ok q => .ok ("ok", q.2))
        else none)
      (fun st => st) (fun st => st) (Reader.open [1, 2])
      = ("Error: " ++ "unpack requires a buffer", none, none) := by
  exact (c10_exception_caught_none (fun (st : Reader) => .ok ("ok", st))
      (fun _ => ["DataPts"])
      (fun bname =>
        if bname = "DataPts" then
          some (fun r =>
            match get_uint r 4 with
            | .error e => .error e
            | .ok q => .ok ("ok", q.2))
        else none)
      (fun st => st) (fun st => st) (Reader.open [1, 2])).2
    "unpack requires a buffer" (Reader.open [1, 2]) (Reader.open [1, 2])
    [] [] "DataPts" _ rfl rfl rfl rfl rfl

/-! ### Claim C6 -/

/-- The header-check prologue under format 2 never answers "ok" when the
bytes at the block's position are not the expected tag: it answers "nok"
when the read bytes are ASCII and raises otherwise. -/
theorem processBlockHeader_mismatch (tag : List Nat) (pos : Nat) (r : Reader)
    (hmm : ((r.data.drop pos).take (tag.length + 1)) ≠ tag ++ [0]) :
    (∃ r2, processBlockHeader 2 tag pos r = .ok ("nok", r2))
    ∨ processBlockHeader 2 tag pos r = .error "ascii codec cannot decode" := by
  have hd : (r.seek pos).data = r.data := by
    by_cases hp : pos = 0 <;> simp [Reader.seek, hp]
  have hp2 : (r.seek pos).pos = pos := by
    by_cases hp : pos = 0 <;> simp [Reader.seek, hp]
  by_cases hascii :
      (((r.data.drop pos).take (tag.length + 1)).all (fun b => b < 128)) = true
  · left
    exact ⟨((r.seek pos).read (tag.length + 1)).2,
      by simp [processBlockHeader, Reader.read, hd, hp2, hascii, hmm]⟩
  · right
    simp [processBlockHeader, Reader.read, hd, hp2, hascii]

/-- C6: under format 2, a block whose embedded leading tag does not equal the
expected `bname ++ [0]` makes the whole parse fail — the final status is not
"ok" — and no output file is written (`convert_to_csv` produces nothing),
regardless of how many blocks were already decoded successfully before it
(`pre`) and independently of the block's own body. -/
theorem c6_header_mismatch_fails_no_output {σ ρ τ : Type}
    (processMap : σ → Except String (String × σ))
    (blockNames : σ → List String)
    (dispatch : String → Option (σ → Except String (String × σ)))
    (results : σ → ρ) (tracedata : σ → τ) (st0 st1 stPre : σ)
    (pre post : List String) (bname : String)
    (tag : List Nat) (pos : Nat)
    (getReader : σ → Reader) (setReader : σ → Reader → σ)
    (body : σ → Except String (String × σ))
    (hmap : processMap st0 = .ok ("ok", st1))
    (hnames : blockNames st1 = pre ++ bname :: post)
    (hpre : blockLoop dispatch pre "ok" st1 = .ok ("ok", stPre))
    (hdisp : dispatch bname
      = some (block_with_header 2 tag pos getReader setReader body))
    (hmm : (((getReader stPre).data.drop pos).take (tag.length + 1))
      ≠ tag ++ [0]) :
    convert_to_csv processMap blockNames dispatch results tracedata st0 = none
    ∧ (sorparse processMap blockNames dispatch results tracedata st0).1
      ≠ "ok" := by
  rcases processBlockHeader_mismatch tag pos (getReader stPre) hmm with
    ⟨r2, hh⟩ | hh
  · have hblock : block_with_header 2 tag pos getReader setReader body stPre
        = .ok ("nok", setReader stPre r2) := by
      simp [block_with_header, hh]
    have hsor : sorparse processMap blockNames dispatch results tracedata st0
        = ("nok", some (results (setReader stPre r2)),
           some (tracedata (setReader stPre r2))) := by
      rw [sorparse_eval processMap blockNames dispatch results tracedata st0 st1 hmap,
        hnames, blockLoop_reach dispatch pre (bname :: post) st1 stPre hpre,
        blockLoop_break dispatch bname post _ stPre _ "nok" hdisp hblock
          (by decide)]
    constructor
    · simp [convert_to_csv, hsor]
    · rw [hsor]; simp
  · have hblock : block_with_header 2 tag pos getReader setReader body stPre
        = .error "ascii codec cannot decode" := by
      simp [block_with_header, hh]
    have hsor : sorparse processMap blockNames dispatch results tracedata st0
        = ("Error: " ++ "ascii codec cannot decode", none, none) := by
      rw [sorparse_eval processMap blockNames dispatch results tracedata st0 st1 hmap,
        hnames, blockLoop_reach dispatch pre (bname :: post) st1 stPre hpre,
        blockLoop_raise dispatch bname post _ stPre _ hdisp hblock]
    constructor
    · simp only [convert_to_csv, hsor]
      rw [if_neg (error_ne_ok "ascii codec cannot decode")]
    · rw [hsor]
      exact error_ne_ok "ascii codec cannot decode"

/-- C6 witness: a one-block format-2 parse whose GenParams tag bytes are
`[0]` instead of `"GenParams\0"`: the parse status is not "ok" and no output
is produced. -/
theorem c6_header_mismatch_witness :
    convert_to_csv (fun (st : Reader) => .ok ("ok", st)) (fun _ => ["GenParams"])
      (fun bname =>
        if bname = "GenParams" then
          some (block_with_header 2 [71, 101, 110, 80, 97, 114, 97, 109, 115] 0
            (fun st => st) (fun _ r => r) (fun r => .ok ("ok", r)))
        else none)
      (fun st => st) (fun st => st) (Reader.open [0])
      = none := by
  exact (c6_header_mismatch_fails_no_output (fun (st : Reader) => .ok ("ok", st))
      (fun _ => ["GenParams"])
      (fun bname =>
        if bname = "GenParams" then
          some (block_with_header 2 [71, 101, 110, 80, 97, 114, 97, 109, 115] 0
            (fun st => st) (fun _ r => r) (fun r => .ok ("ok", r)))
        else none)
      (fun st => st) (fun st => st) (Reader.open [0]) (Reader.open [0])
      (Reader.open [0]) [] [] "GenParams"
      [71, 101, 110, 80, 97, 114, 97, 109, 115] 0
      (fun st => st) (fun _ r => r) (fun r => .ok ("ok", r))
      rfl rfl rfl rfl (by decide)).1

/-! ### Claim C5 -/

/-- C5: whenever the Cksum decoder returns a record at all its status is
"ok" and the mismatch is recorded purely as data
(`chkMatch = (checksumOurs == checksum)`, so `false` on a mismatch); and a
parse whose block loop ends with status "ok" — as it does when the Cksum
block merely records a mismatch — yields an overall success with the trace
data still produced by `convert_to_csv`. -/
theorem c5_cksum_mismatch_nonfatal :
    (∀ (format pos : Nat) (r r' : Reader) (st : String) (rec : CksumRecord),
        process_cksum format pos r = .ok (st, some rec, r') →
        st = "ok" ∧ rec.chkMatch = (rec.checksumOurs == rec.checksum))
    ∧ (∀ {σ ρ τ : Type} (processMap : σ → Except String (String × σ))
        (blockNames : σ → List String)
        (dispatch : String → Option (σ → Except String (String × σ)))
        (results : σ → ρ) (tracedata : σ → τ) (st0 st1 st2 : σ),
        processMap st0 = .ok ("ok", st1) →
        blockLoop dispatch (blockNames st1) "ok" st1 = .ok ("ok", st2) →
        sorparse processMap blockNames dispatch results tracedata st0
            = ("ok", some (results st2), some (tracedata st2))
        ∧ convert_to_csv processMap blockNames dispatch results tracedata st0
            = some (tracedata st2)) := by
  constructor
  · intro format pos r r' st rec h
    unfold process_cksum at h
    split at h
    · exact absurd h (by simp)
    · split at h
      · exact absurd h (by simp)
      · split at h
        · exact absurd h (by simp)
        · simp only [Except.ok.injEq, Prod.mk.injEq, Option.some.injEq] at h
          obtain ⟨h1, h2, h3⟩ := h
          subst h1
          subst h2
          exact ⟨rfl, rfl⟩
  · intro σ ρ τ processMap blockNames dispatch results tracedata st0 st1 st2
      hmap hloop
    have hsor : sorparse processMap blockNames dispatch results tracedata st0
        = ("ok", some (results st2), some (tracedata st2)) := by
      rw [sorparse_eval processMap blockNames dispatch results tracedata st0 st1 hmap,
        hloop]
    exact ⟨hsor, by simp [convert_to_csv, hsor]⟩

/-- C5 witness: a concrete format-1 Cksum block whose stored checksum (0)
differs from the computed digest (0xFFFF): the decoder still answers "ok"
with `chkMatch = false`, and a parse whose loop ends "ok" yields success with
output. -/
theorem c5_cksum_witness :
    (∃ st rec r', process_cksum 1 1 (Reader.open [0, 0, 0]) = .ok (st, some rec, r')
      ∧ st = "ok" ∧ rec.chkMatch = (rec.checksumOurs == rec.checksum)
      ∧ rec.checksumOurs = 65535 ∧ rec.checksum = 0 ∧ rec.chkMatch = false)
    ∧ sorparse (fun (st : Nat) => .ok ("ok", st + 1)) (fun _ => [])
        (fun _ => none) (fun st => st) (fun st => st) 0 = ("ok", some 1, some 1)
    ∧ convert_to_csv (fun (st : Nat) => .ok ("ok", st + 1)) (fun _ => [])
        (fun _ => none) (fun st => st) (fun st => st) 0 = some 1 := by
  have hrun : process_cksum 1 1 (Reader.open [0, 0, 0])
      = .ok ("ok", some { checksumOurs := 65535, checksum := 0, chkMatch := false },
          { data := [0, 0, 0], pos := 3,
            fh := { crc := 65535, buffer := [0, 0], spaceleft := 2046 } }) := by
    decide
  have h1 := c5_cksum_mismatch_nonfatal.1 1 1 (Reader.open [0, 0, 0])
    { data := [0, 0, 0], pos := 3,
      fh := { crc := 65535, buffer := [0, 0], spaceleft := 2046 } }
    "ok" { checksumOurs := 65535, checksum := 0, chkMatch := false } hrun
  have h2 := c5_cksum_mismatch_nonfatal.2 (fun (st : Nat) => .ok ("ok", st + 1))
    (fun _ => []) (fun _ => none) (fun st => st) (fun st => st) 0 1 1 rfl rfl
  exact ⟨⟨"ok", _, _, hrun, h1.1, h1.2, rfl, rfl, rfl⟩, h2.1, h2.2⟩

/-! ### Claim C9 -/

theorem takeUntilNul_eq_mapTag (data : List Nat) :
    takeUntilNul data = [77, 97, 112]
      ↔ (data.take 4 = [77, 97, 112, 0] ∨ data = [77, 97, 112]) := by
  rcases data with _ | ⟨a, _ | ⟨b, _ | ⟨c, _ | ⟨d, t⟩⟩⟩⟩
  · simp [takeUntilNul]
  · by_cases ha : a = 0 <;> simp [takeUntilNul, ha]
  · by_cases ha : a = 0 <;> by_cases hb : b = 0 <;>
      simp [takeUntilNul, ha, hb]
  · by_cases ha : a = 0 <;> by_cases hb : b = 0 <;> by_cases hc : c = 0 <;>
      simp [takeUntilNul, ha, hb, hc]
  · by_cases ha : a = 0 <;> by_cases hb : b = 0 <;> by_cases hc : c = 0 <;>
      by_cases hd : d = 0 <;> simp [takeUntilNul, ha, hb, hc, hd]

theorem get_string_open (data : List Nat) :
    get_string ((Reader.open data).seek 0)
      = if utf8Valid (takeUntilNul data) then
          .ok (takeUntilNul data,
            { data := data, pos := (getStringAux FileHandler.init data).2.1,
              fh := (getStringAux FileHandler.init data).2.2 })
        else .error "utf-8 codec cannot decode" := by
  simp [get_string, Reader.open, Reader.seek, getStringAux_fst]

theorem process_mapformat_fmt2 (data : List Nat) :
    (∃ r, process_mapformat data = .ok (2, r))
      ↔ takeUntilNul data = mapTag := by
  constructor
  · rintro ⟨r, hr⟩
    simp only [process_mapformat] at hr
    rw [get_string_open] at hr
    by_cases hv : utf8Valid (takeUntilNul data) = true
    · simp only [if_pos hv] at hr
      by_cases ht : takeUntilNul data = mapTag
      · exact ht
      · simp only [if_neg ht] at hr
        exact absurd hr (by simp)
    · simp only [if_neg hv] at hr
      exact absurd hr (by simp)
  · intro hs
    have hv : utf8Valid (takeUntilNul data) = true := by rw [hs]; decide
    refine ⟨{ data := data, pos := (getStringAux FileHandler.init data).2.1,
              fh := (getStringAux FileHandler.init data).2.2 }, ?_⟩
    simp only [process_mapformat]
    rw [get_string_open]
    simp only [if_pos hv, if_pos hs]

theorem process_mapformat_fmt1 (data : List Nat) (fmt : Nat) (r : Reader)
    (hr : process_mapformat data = .ok (fmt, r)) (hne : fmt ≠ 2) :
    fmt = 1 ∧ r.pos = 0 ∧ r.fh = FileHandler.init := by
  simp only [process_mapformat] at hr
  rw [get_string_open] at hr
  by_cases hv : utf8Valid (takeUntilNul data) = true
  · simp only [if_pos hv] at hr
    by_cases ht : takeUntilNul data = mapTag
    · simp only [if_pos ht, Except.ok.injEq, Prod.mk.injEq] at hr
      exact absurd hr.1.symm hne
    · simp only [if_neg ht, Except.ok.injEq, Prod.mk.injEq] at hr
      obtain ⟨h1, h2⟩ := hr
      refine ⟨h1.symm, ?_, ?_⟩
      · rw [← h2]; simp [Reader.seek]
      · rw [← h2]; simp [Reader.seek]
  · simp only [if_neg hv] at hr
    exact absurd hr (by simp)

/-- C9 counterexample: the 3-byte file consisting of exactly the bytes
"Map" with no trailing NUL: the leading-string read stops at end of stream,
the probe still sets format = 2, yet the file does not begin with the 4
bytes "Map\0" (its 4-byte prefix is only "Map"). -/
theorem c9_truncated_map_counterexample :
    (∃ r, process_mapformat [77, 97, 112] = .ok (2, r))
    ∧ [77, 97, 112].take 4 ≠ [77, 97, 112, 0] := by
  constructor
  · exact ⟨⟨[77, 97, 112], 3, ⟨65535, [77, 97, 112], 2045⟩⟩, by decide⟩
  · decide

/-- C9 amended: the probe sets format = 2 exactly when the leading
NUL-or-EOF-terminated string is "Map" — that is, when the file begins with
the 4 bytes "Map\0", or the file is exactly the 3 bytes "Map"; whenever the
probe succeeds with any other format it yields format 1 with the cursor
rewound to 0 and the CRC state and buffer fully reset (an invalid-UTF-8
leading string instead raises, caught upstream); and seek(0) itself always
resets the CRC register, the buffer and the cursor. -/
theorem c9_format_detection_amended :
    (∀ data : List Nat,
        (∃ r, process_mapformat data = .ok (2, r))
          ↔ (data.take 4 = [77, 97, 112, 0] ∨ data = [77, 97, 112]))
    ∧ (∀ (data : List Nat) (fmt : Nat) (r : Reader),
        process_mapformat data = .ok (fmt, r) → fmt ≠ 2 →
        fmt = 1 ∧ r.pos = 0 ∧ r.fh = FileHandler.init)
    ∧ (∀ r : Reader, (r.seek 0).fh = FileHandler.init ∧ (r.seek 0).pos = 0) := by
  refine ⟨?_, process_mapformat_fmt1, ?_⟩
  · intro data
    rw [process_mapformat_fmt2 data]
    exact takeUntilNul_eq_mapTag data
  · intro r
    constructor <;> simp [Reader.seek]

/-- C9 witness: the amended characterization applied at three concrete
inputs — a file beginning "Map\0", the file `[1, 2]` (format 1 with a full
reset), and a seek(0) on a fresh reader. -/
theorem c9_format_witness :
    (∃ r, process_mapformat [77, 97, 112, 0, 5] = .ok (2, r))
    ∧ ((1 : Nat) = 1
        ∧ ({ data := [1, 2], pos := 0, fh := FileHandler.init } : Reader).pos = 0
        ∧ ({ data := [1, 2], pos := 0, fh := FileHandler.init } : Reader).fh
          = FileHandler.init)
    ∧ ((Reader.open [9]).seek 0).fh = FileHandler.init := by
  refine ⟨?_, ?_, ?_⟩
  · exact (c9_format_detection_amended.1 [77, 97, 112, 0, 5]).mpr
      (Or.inl (by decide))
  · exact c9_format_detection_amended.2.1 [1, 2] 1
      { data := [1, 2], pos := 0, fh := FileHandler.init } (by decide) (by decide)
  · exact (c9_format_detection_amended.2.2 (Reader.open [9])).1

end SorConCsv
